import Mathlib

/-!
Verification of the `dateTimeUtils` calendar library (src/dateTimeUtils.js).

The JavaScript source is shallowly embedded as follows.

* JS numbers are modelled as exact integers (`Int`).  Every value that the
  library actually computes on the inputs considered here is an integer in
  the double-exact range, so ideal-integer arithmetic coincides with the
  JS semantics.
* `Math.floor(x / k)` for a positive literal `k` is floor division, which is
  `Int` division `/` (Euclidean division agrees with floor division for
  positive divisors).
* The JS truncating idiom `x / k >> 0` is `Int.tdiv` (truncation toward
  zero); the JS remainder `%` (sign of the dividend) is `Int.tmod`.
  (`>> 0` additionally wraps into 32-bit range; no value considered here
  comes near that range.)
* An absent argument (`undefined`) and the non-numeric parse result `NaN`
  are both modelled as `none : Option Int`; `x || 1` and `x || 0`
  defaulting is modelled by `jsOr1` / `jsOr0`.
* JS strings are modelled by `String`, operated on through their character
  lists; `String.prototype.split` with a single-character separator is
  `splitOnChar`, `Number(...)` on the integer-literal grammar that this
  own output grammar of the library produces is `jsNumL`, and number-to-string coercion
  is `intToStr` / `intToStrL` (digits built by `natDigits`).
* The mutable calendar-date object (`Date`) is the record `DateObj`;
  `setFullYear(y, m, d)` sets the three calendar fields (the JS month field
  is 0-based), `setHours(0,0,0,0)` zeroes the time fields.  The values a
  fresh `new Date` carries are irrelevant because `JDtoDate` immediately
  overwrites all six modelled fields, so the fresh object is modelled by a
  fixed placeholder.
-/

/-- JS `x || 1` on an optional number: `undefined`, `NaN` and `0` all give 1. -/
def jsOr1 : Option Int → Int
  | none => 1
  | some v => if v = 0 then 1 else v

/-- JS `x || 0` on an optional number: `undefined`/`NaN` give 0; an integer
`v` gives `v` (also for `v = 0`, where `0 || 0 = 0`). -/
def jsOr0 (o : Option Int) : Int := o.getD 0

/-- Character of a decimal digit value (`0 ↦ '0'`, …, `9 ↦ '9'`). -/
def digitChar (n : Nat) : Char := Char.ofNat (48 + n)

/-- Decimal digit test, as for JS `Number(...)` parsing. -/
def isDig (c : Char) : Bool := 48 ≤ c.toNat && c.toNat ≤ 57

/-- Value of a decimal digit character. -/
def dVal (c : Char) : Nat := c.toNat - 48

/-- Left-to-right decimal accumulation; `none` on any non-digit (JS `NaN`). -/
def digitsAcc : Nat → List Char → Option Nat
  | acc, [] => some acc
  | acc, c :: cs => if isDig c then digitsAcc (10 * acc + dVal c) cs else none

/-- Fuel-driven digit expansion of a natural number (most significant first). -/
def natDigitsGo : Nat → Nat → List Char → List Char
  | 0, _, tail => tail
  | fuel + 1, n, tail =>
    if n < 10 then digitChar n :: tail
    else natDigitsGo fuel (n / 10) (digitChar (n % 10) :: tail)

/-- Decimal digits of a natural number, as JS number-to-string produces. -/
def natDigits (n : Nat) : List Char := natDigitsGo (n + 1) n []

/-- JS number-to-string coercion of an integer, as a character list. -/
def intToStrL (n : Int) : List Char :=
  if n < 0 then '-' :: natDigits (-n).toNat else natDigits n.toNat

/-- JS number-to-string coercion of an integer. -/
def intToStr (n : Int) : String := ⟨intToStrL n⟩

/-- JS `Number(string)` on the integer-literal grammar (optional `-` sign,
decimal digits, empty string gives 0); `none` models `NaN`. -/
def jsNumL : List Char → Option Int
  | [] => some 0
  | c :: cs =>
    if c = '-' then
      if cs = [] then none else (digitsAcc 0 cs).map fun v => -(v : Int)
    else (digitsAcc 0 (c :: cs)).map fun v => (v : Int)

/-- JS `String.prototype.split` with a one-character separator. -/
def splitOnChar (sep : Char) : List Char → List (List Char)
  | [] => [[]]
  | c :: cs =>
    match splitOnChar sep cs with
    | [] => [[c]]
    | h :: t => if c = sep then [] :: h :: t else (c :: h) :: t

/-- Model of `YMDtoJD` (src/dateTimeUtils.js lines 146-153).
`month || (month = 1)` and `(+day || 1)` are how the source defaults a
falsy month/day; all `Math.floor` divisions have positive divisors. -/
def YMDtoJD (year : Int) (month day : Option Int) : Int :=
  let m0 := jsOr1 month
  let a := (14 - m0) / 12
  let y := year + 4800 - a
  let m := m0 + 12 * a - 3
  jsOr1 day + (153 * m + 2) / 5 + 365 * y + y / 4 - y / 100 + y / 400 - 32045

/-- Local `a` of `JDtoYMD` (src/dateTimeUtils.js line 113). -/
def jdA (JD : Int) : Int := JD + 32044

/-- Local `b` of `JDtoYMD` (line 114). -/
def jdB (JD : Int) : Int := (4 * jdA JD + 3) / 146097

/-- Local `c` of `JDtoYMD` (line 115). -/
def jdC (JD : Int) : Int := jdA JD - 146097 * jdB JD / 4

/-- Local `d` of `JDtoYMD` (line 116). -/
def jdD (JD : Int) : Int := (4 * jdC JD + 3) / 1461

/-- Local `e` of `JDtoYMD` (line 117). -/
def jdE (JD : Int) : Int := jdC JD - 1461 * jdD JD / 4

/-- Local `m` of `JDtoYMD` (line 118). -/
def jdM (JD : Int) : Int := (5 * jdE JD + 2) / 153

/-- Model of `JDtoYMD` (src/dateTimeUtils.js lines 111-124): returns
`[year, month, day]`. -/
def JDtoYMD (JD : Int) : Int × Int × Int :=
  (100 * jdB JD + jdD JD - 4800 + jdM JD / 10,
   jdM JD + 3 - 12 * (jdM JD / 10),
   jdE JD - (153 * jdM JD + 2) / 5 + 1)

/-- Local `m` of `YMDtoDayOfWeek` (src/dateTimeUtils.js line 353); the JS
`(14 - month) / 12 >> 0` truncates toward zero. -/
def dowM (month : Int) : Int := Int.tdiv (14 - month) 12

/-- Local `y` of `YMDtoDayOfWeek` (line 354). -/
def dowY (year month : Int) : Int := year + 4800 - dowM month

/-- The month term of `YMDtoDayOfWeek` (line 355), truncated by `>> 0`. -/
def dowT (month : Int) : Int := Int.tdiv (153 * (month + 12 * dowM month - 3) + 2) 5

/-- Local `r` of `YMDtoDayOfWeek` (line 355); the JS `%` keeps the sign of
the dividend, hence `Int.tmod`. -/
def dowR (year month day : Int) : Int :=
  Int.tmod (day + dowT month + 365 * dowY year month + Int.tdiv (dowY year month) 4 -
    Int.tdiv (dowY year month) 100 + Int.tdiv (dowY year month) 400 - 32045) 7 + 1

/-- Model of `YMDtoDayOfWeek` (src/dateTimeUtils.js lines 351-358):
0 = Sunday … 6 = Saturday. -/
def YMDtoDayOfWeek (year month day : Int) : Int :=
  if dowR year month day = 7 then 0 else dowR year month day

/-- Model of `YWDoWtoJD` (src/dateTimeUtils.js lines 163-169).
`dow : Option Int` covers an omitted argument and a `NaN` parse; both, and
an explicit 0, default to 1 through `dow || 1`. -/
def YWDoWtoJD (year week : Int) (dow : Option Int) : Int :=
  let dowby := if YMDtoDayOfWeek year 1 1 = 0 then 7 else YMDtoDayOfWeek year 1 1
  let jd := if 1 < dowby ∧ dowby < 5 then YMDtoJD (year - 1) (some 12) (some (33 - dowby))
            else YMDtoJD year (some 1) (some (if dowby = 1 then 1 else 9 - dowby))
  jd + 7 * (week - 1) + jsOr1 dow - 1

/-- Model of the helper `YMDtoYWd_` (src/dateTimeUtils.js lines 80-92):
returns `[isoYear, isoWeek, isoDow]`.  The destructive `--year` of the source is
written functionally; the week expression `1 + (tjd - fwjd) / 7 >> 0`
truncates `1 + diff/7`, i.e. `Int.tdiv (7 + diff) 7`. -/
def YMDtoYWd_ (year : Int) (month day : Option Int) : Int × Int × Int :=
  let tjd := YMDtoJD year month day
  let fwjd := YWDoWtoJD year 1 none
  let fwnyjd := YWDoWtoJD (year + 1) 1 none
  if fwnyjd ≤ tjd then
    (year + 1, 1, 1 + Int.tmod (tjd - fwnyjd) 7)
  else if tjd < fwjd then
    (year - 1, Int.tdiv (7 + (tjd - YWDoWtoJD (year - 1) 1 none)) 7,
     1 + Int.tmod (tjd - YWDoWtoJD (year - 1) 1 none) 7)
  else
    (year, Int.tdiv (7 + (tjd - fwjd)) 7, 1 + Int.tmod (tjd - fwjd) 7)

/-- Model of the helper `pad_` (src/dateTimeUtils.js lines 99-101):
`n < 10 ? '0' + n : n + ''` (for a negative `n`, JS concatenates
`"0" + "-..."`, which the branch reproduces). -/
def pad_ (n : Int) : String := if n < 10 then "0" ++ intToStr n else intToStr n

/-- Model of `YDMtoISO_YW` (src/dateTimeUtils.js lines 313-316); the
zero-padding of the week is inlined in the source exactly like this. -/
def YDMtoISO_YW (year : Int) (month day : Option Int) : String :=
  let d := YMDtoYWd_ year month day
  intToStr d.1 ++ "-W" ++ (if d.2.1 < 10 then "0" ++ intToStr d.2.1 else intToStr d.2.1)

/-- Model of `ISOtoJD` (src/dateTimeUtils.js lines 177-191).  A `none`
result models a `NaN` result of the JS code (and, in the one-token week
branch, the `TypeError` the JS code would raise on `undefined.substr`). -/
def ISOtoJD (s : String) : Option Int :=
  if s.data.contains 'W' then
    match splitOnChar '-' s.data with
    | y0 :: w1 :: rest =>
      match jsNumL y0, jsNumL (w1.drop 1) with
      | some y, some w => some (YWDoWtoJD y w (rest.head?.bind jsNumL))
      | _, _ => none
    | _ => none
  else
    match splitOnChar '-' ((splitOnChar 'T' s.data).headD []) with
    | y0 :: rest =>
      (jsNumL y0).map fun y =>
        YMDtoJD y (rest.head?.bind jsNumL) ((rest.drop 1).head?.bind jsNumL)
    | [] => none

/-- Model of `ISOtoADMonth` (src/dateTimeUtils.js lines 458-461):
`s[0] * 12 + (s[1] || 1) - 1` after split-and-Number. -/
def ISOtoADMonth (s : String) : Option Int :=
  match splitOnChar '-' s.data with
  | y0 :: rest => (jsNumL y0).map fun y => y * 12 + jsOr1 (rest.head?.bind jsNumL) - 1
  | [] => none

/-- Model of `ADMonthToISO_YM` (src/dateTimeUtils.js lines 474-476):
`(adMonth / 12 >> 0) + '-' + pad_(adMonth % 12 + 1)` with JS truncating
division and remainder. -/
def ADMonthToISO_YM (adMonth : Int) : String :=
  intToStr (Int.tdiv adMonth 12) ++ "-" ++ pad_ (Int.tmod adMonth 12 + 1)

/-- Model of `ADMonthToJD` (src/dateTimeUtils.js lines 489-491). -/
def ADMonthToJD (adMonth : Int) : Int :=
  YMDtoJD (Int.tdiv adMonth 12) (some (Int.tmod adMonth 12 + 1)) (some 1)

/-- Model of `HMStoSeconds` (src/dateTimeUtils.js lines 408-410). -/
def HMStoSeconds (hours : Int) (minutes seconds : Option Int) : Int :=
  hours * 3600 + jsOr0 minutes * 60 + jsOr0 seconds

/-- Model of `ISO_HMStoSeconds` (src/dateTimeUtils.js lines 428-430). -/
def ISO_HMStoSeconds (s : String) : Option Int :=
  match splitOnChar ':' s.data with
  | h0 :: rest =>
    (jsNumL h0).map fun h =>
      HMStoSeconds h (rest.head?.bind jsNumL) ((rest.drop 1).head?.bind jsNumL)
  | [] => none

/-- Model of `ISO_HMStoPercents` (src/dateTimeUtils.js lines 438-440);
the JS division `* 100 / 86399` is exact rational arithmetic here. -/
def ISO_HMStoPercents (s : String) : Option ℚ :=
  match splitOnChar ':' s.data with
  | h0 :: rest =>
    (jsNumL h0).map fun h =>
      (HMStoSeconds h (rest.head?.bind jsNumL) ((rest.drop 1).head?.bind jsNumL) : ℚ) * 100 / 86399
  | [] => none

/-- The calendar-date object of the `Date` adapters of the library: the fields
reachable through the accessors/mutators the library uses.  `month` is the
JS 0-based month. -/
structure DateObj where
  fullYear : Int
  month : Int
  date : Int
  hours : Int
  minutes : Int
  seconds : Int

/-- Model of `JDtoDate` (src/dateTimeUtils.js lines 220-230): without a
date object, `new Date` followed by `setHours(0,0,0,0)` gives zero time
fields (the initial calendar fields, placeholder `0/0/1` here, are
immediately overwritten); then `setFullYear(ymd[0], ymd[1] - 1, ymd[2])`
sets the calendar fields. -/
def JDtoDate (JD : Int) (date : Option DateObj) : DateObj :=
  let ymd := JDtoYMD JD
  let base := match date with
    | some d => d
    | none => { fullYear := 0, month := 0, date := 1, hours := 0, minutes := 0, seconds := 0 }
  { base with fullYear := ymd.1, month := ymd.2.1 - 1, date := ymd.2.2 }

/-- The proleptic-Gregorian leap-year rule (the validity notion of the spec). -/
def isLeap (y : Int) : Prop := (y % 4 = 0 ∧ y % 100 ≠ 0) ∨ y % 400 = 0

instance (y : Int) : Decidable (isLeap y) := by unfold isLeap; infer_instance

/-- Number of days of month `m` of year `y` under the Gregorian rules (the
validity notion of the spec; only meaningful for `1 ≤ m ≤ 12`). -/
def daysInMonth (y m : Int) : Int :=
  if m = 2 then (if isLeap y then 29 else 28)
  else if m = 4 ∨ m = 6 ∨ m = 9 ∨ m = 11 then 30
  else 31

/-! ### Range lemmas for the Fliegel–Van Flandern decomposition -/

lemma jdC_bounds (jd : Int) : 0 ≤ jdC jd ∧ jdC jd ≤ 36524 := by
  have hb : jdB jd = (4 * jdA jd + 3) / 146097 := rfl
  have hc : jdC jd = jdA jd - 146097 * jdB jd / 4 := rfl
  omega

lemma jdD_bounds (jd : Int) : 0 ≤ jdD jd ∧ jdD jd ≤ 99 := by
  have h1 := jdC_bounds jd
  have hd : jdD jd = (4 * jdC jd + 3) / 1461 := rfl
  omega

lemma jdE_bounds (jd : Int) : 0 ≤ jdE jd ∧ jdE jd ≤ 365 := by
  have h1 := jdC_bounds jd
  have hd : jdD jd = (4 * jdC jd + 3) / 1461 := rfl
  have he : jdE jd = jdC jd - 1461 * jdD jd / 4 := rfl
  omega

lemma jdM_bounds (jd : Int) : 0 ≤ jdM jd ∧ jdM jd ≤ 11 := by
  have h1 := jdE_bounds jd
  have hm : jdM jd = (5 * jdE jd + 2) / 153 := rfl
  omega

lemma jd_day_bounds (jd : Int) :
    1 ≤ jdE jd - (153 * jdM jd + 2) / 5 + 1 ∧
    jdE jd - (153 * jdM jd + 2) / 5 + 1 ≤ 31 := by
  have h1 := jdE_bounds jd
  have hm : jdM jd = (5 * jdE jd + 2) / 153 := rfl
  omega

lemma jd_mnth_bounds (jd : Int) :
    1 ≤ jdM jd + 3 - 12 * (jdM jd / 10) ∧
    jdM jd + 3 - 12 * (jdM jd / 10) ≤ 12 := by
  have h1 := jdM_bounds jd
  omega

/-- The decomposition of `D + 365 y' + ⌊y'/4⌋ - ⌊y'/100⌋ + ⌊y'/400⌋ - 32044`
for a day-of-shifted-year `D` recovers the century, the year-in-century and
`D`; `D = 365` (a day index only reached on Feb 29) needs the leap
congruences of the shifted year. -/
lemma fvf_forward (y' D jd : Int)
    (hjd : jd = D + 365 * y' + y' / 4 - y' / 100 + y' / 400 - 32044)
    (h0 : 0 ≤ D) (h365 : D ≤ 365)
    (hleap : D = 365 → y' % 4 = 3 ∧ (y' % 100 = 99 → y' % 400 = 399)) :
    jdB jd = y' / 100 ∧ jdD jd = y' % 100 ∧ jdE jd = D := by
  have hq1 : y' / 4 = 25 * (y' / 100) + (y' % 100) / 4 := by omega
  have hq2 : y' / 400 = (y' / 100) / 4 := by omega
  have hq3 : y' % 400 = 100 * ((y' / 100) % 4) + y' % 100 := by omega
  have hb : jdB jd = y' / 100 := by
    have e1 : jdB jd = (4 * (jd + 32044) + 3) / 146097 := rfl
    omega
  have hc : jdC jd = 365 * (y' % 100) + (y' % 100) / 4 + D := by
    have e2 : jdC jd = (jd + 32044) - 146097 * jdB jd / 4 := rfl
    have i1 : 146097 * jdB jd / 4 = 36524 * jdB jd + jdB jd / 4 := by omega
    omega
  have hd : jdD jd = y' % 100 := by
    have e3 : jdD jd = (4 * jdC jd + 3) / 1461 := rfl
    omega
  have he : jdE jd = D := by
    have e4 : jdE jd = jdC jd - 1461 * jdD jd / 4 := rfl
    have i2 : 1461 * jdD jd / 4 = 365 * jdD jd + jdD jd / 4 := by omega
    omega
  exact ⟨hb, hd, he⟩

/-- A decomposition ending on the last day of the shifted year (`e = 365`)
forces the leap congruences of the 4-year and 400-year cycles. -/
lemma fvf_back_steps (a b c d e : Int)
    (hb : b = (4 * a + 3) / 146097)
    (hc : c = a - 146097 * b / 4)
    (hd : d = (4 * c + 3) / 1461)
    (he : e = c - 1461 * d / 4)
    (hE : e = 365) : d % 4 = 3 ∧ (d = 99 → b % 4 = 3) := by
  have i1 : 146097 * b / 4 = 36524 * b + b / 4 := by omega
  have i2 : 1461 * d / 4 = 365 * d + d / 4 := by omega
  constructor
  · omega
  · intro h99
    omega

/-- When `JDtoYMD` returns February 29, the returned year is a leap year. -/
lemma jd_feb_leap (jd : Int) (hm11 : jdM jd = 11)
    (hday : jdE jd - (153 * jdM jd + 2) / 5 + 1 = 29) :
    isLeap (100 * jdB jd + jdD jd - 4800 + jdM jd / 10) := by
  have hE365 : jdE jd = 365 := by rw [hm11] at hday; omega
  have h1 := fvf_back_steps (jd + 32044) (jdB jd) (jdC jd) (jdD jd) (jdE jd)
    rfl rfl rfl rfl hE365
  have h2 := jdD_bounds jd
  unfold isLeap
  rw [hm11]
  omega

/-! ### Claim theorems -/

/-- C1: for every integer `jd` (in particular throughout −100000..3000000),
`YMDtoJD (JDtoYMD jd)[0] (JDtoYMD jd)[1] (JDtoYMD jd)[2] = jd`. -/
theorem C1_JD_roundtrip (jd : Int) :
    YMDtoJD (JDtoYMD jd).1 (some (JDtoYMD jd).2.1) (some (JDtoYMD jd).2.2) = jd := by
  have hmb := jdM_bounds jd
  have heb := jdE_bounds jd
  have hdb := jdD_bounds jd
  have hdayb := jd_day_bounds jd
  have hmnthb := jd_mnth_bounds jd
  show YMDtoJD (100 * jdB jd + jdD jd - 4800 + jdM jd / 10)
      (some (jdM jd + 3 - 12 * (jdM jd / 10)))
      (some (jdE jd - (153 * jdM jd + 2) / 5 + 1)) = jd
  unfold YMDtoJD jsOr1
  simp only []
  rw [if_neg (by omega), if_neg (by omega)]
  have hb : jdB jd = (4 * (jd + 32044) + 3) / 146097 := rfl
  have hc : jdC jd = (jd + 32044) - 146097 * jdB jd / 4 := rfl
  have hd : jdD jd = (4 * jdC jd + 3) / 1461 := rfl
  have he : jdE jd = jdC jd - 1461 * jdD jd / 4 := rfl
  have hm : jdM jd = (5 * jdE jd + 2) / 153 := rfl
  have i1 : 146097 * jdB jd / 4 = 36524 * jdB jd + jdB jd / 4 := by omega
  have i2 : 1461 * jdD jd / 4 = 365 * jdD jd + jdD jd / 4 := by omega
  have hA : (14 - (jdM jd + 3 - 12 * (jdM jd / 10))) / 12 = jdM jd / 10 := by omega
  have hI : (153 * (jdM jd + 3 - 12 * (jdM jd / 10) +
        12 * ((14 - (jdM jd + 3 - 12 * (jdM jd / 10))) / 12) - 3) + 2) / 5 =
      (153 * jdM jd + 2) / 5 := by omega
  have hY : 100 * jdB jd + jdD jd - 4800 + jdM jd / 10 + 4800 -
      (14 - (jdM jd + 3 - 12 * (jdM jd / 10))) / 12 = 100 * jdB jd + jdD jd := by omega
  have hJ : (100 * jdB jd + jdD jd - 4800 + jdM jd / 10 + 4800 -
        (14 - (jdM jd + 3 - 12 * (jdM jd / 10))) / 12) / 4 =
      25 * jdB jd + jdD jd / 4 := by omega
  have hK : (100 * jdB jd + jdD jd - 4800 + jdM jd / 10 + 4800 -
        (14 - (jdM jd + 3 - 12 * (jdM jd / 10))) / 12) / 100 = jdB jd := by omega
  have hL : (100 * jdB jd + jdD jd - 4800 + jdM jd / 10 + 4800 -
        (14 - (jdM jd + 3 - 12 * (jdM jd / 10))) / 12) / 400 = jdB jd / 4 := by omega
  omega

/-- C9: for every integer `jd`, `JDtoYMD jd` is a valid proleptic-Gregorian
civil date: the month is in 1..12 and the day is in 1..daysInMonth. -/
theorem C9_JDtoYMD_valid (jd : Int) :
    1 ≤ (JDtoYMD jd).2.1 ∧ (JDtoYMD jd).2.1 ≤ 12 ∧
    1 ≤ (JDtoYMD jd).2.2 ∧
    (JDtoYMD jd).2.2 ≤ daysInMonth (JDtoYMD jd).1 (JDtoYMD jd).2.1 := by
  show 1 ≤ jdM jd + 3 - 12 * (jdM jd / 10) ∧ jdM jd + 3 - 12 * (jdM jd / 10) ≤ 12 ∧
    1 ≤ jdE jd - (153 * jdM jd + 2) / 5 + 1 ∧
    jdE jd - (153 * jdM jd + 2) / 5 + 1 ≤
      daysInMonth (100 * jdB jd + jdD jd - 4800 + jdM jd / 10) (jdM jd + 3 - 12 * (jdM jd / 10))
  refine ⟨(jd_mnth_bounds jd).1, (jd_mnth_bounds jd).2, (jd_day_bounds jd).1, ?_⟩
  have hmb := jdM_bounds jd
  rcases (by omega : jdM jd = 11 ∨ jdM jd ≠ 11) with h11 | h11
  · have hmn : jdM jd + 3 - 12 * (jdM jd / 10) = 2 := by omega
    rw [hmn]
    unfold daysInMonth
    simp only [if_pos rfl]
    by_cases hL : isLeap (100 * jdB jd + jdD jd - 4800 + jdM jd / 10)
    · rw [if_pos hL]
      have h1 := jdE_bounds jd
      rw [h11]
      omega
    · rw [if_neg hL]
      by_contra hgt
      have h1 := jdE_bounds jd
      have hm : jdM jd = (5 * jdE jd + 2) / 153 := rfl
      have h29 : jdE jd - (153 * jdM jd + 2) / 5 + 1 = 29 := by
        have h2 := jd_day_bounds jd
        rw [h11] at hgt ⊢
        omega
      exact hL (jd_feb_leap jd h11 h29)
  · have hmn2 : jdM jd + 3 - 12 * (jdM jd / 10) ≠ 2 := by omega
    unfold daysInMonth
    rw [if_neg hmn2]
    have h1 := jdE_bounds jd
    have hm : jdM jd = (5 * jdE jd + 2) / 153 := rfl
    split
    · omega
    · omega

/-- One month of the YMD→JD→YMD round trip, with the month-dependent
constants (`A` the Jan/Feb shift, `K = 4800 - A`, `T` the day-of-shifted-year
of day 1, `m'` the shifted month, `dmax` the maximal day length used). -/
lemma c2_month (y d M A K T m' dmax : Int)
    (hM : 1 ≤ M) (hM12 : M ≤ 12)
    (hA : (14 - M) / 12 = A)
    (hK : K = 4800 - A)
    (hT : (153 * (M + 12 * A - 3) + 2) / 5 = T)
    (hm' : m' = M + 12 * A - 3)
    (hm'b : 0 ≤ m' ∧ m' ≤ 11)
    (hd1 : 1 ≤ d) (hdmax : d ≤ dmax)
    (h365 : T + dmax - 1 ≤ 365)
    (hup : 5 * T + 5 * dmax - 3 < 153 * (m' + 1))
    (hAm : m' / 10 = A)
    (hleap : T + d - 1 = 365 →
      (y + K) % 4 = 3 ∧ ((y + K) % 100 = 99 → (y + K) % 400 = 399)) :
    JDtoYMD (YMDtoJD y (some M) (some d)) = (y, M, d) := by
  have hjd : YMDtoJD y (some M) (some d) =
      (T + d - 1) + 365 * (y + K) + (y + K) / 4 - (y + K) / 100 + (y + K) / 400 - 32044 := by
    unfold YMDtoJD jsOr1
    simp only []
    rw [if_neg (by omega), if_neg (by omega)]
    omega
  have h0 : 0 ≤ T + d - 1 := by omega
  have h365' : T + d - 1 ≤ 365 := by omega
  obtain ⟨hb, hdd, he⟩ := fvf_forward (y + K) (T + d - 1)
    (YMDtoJD y (some M) (some d)) hjd h0 h365' hleap
  have hm5 : jdM (YMDtoJD y (some M) (some d)) = m' := by
    have e5 : jdM (YMDtoJD y (some M) (some d)) =
      (5 * jdE (YMDtoJD y (some M) (some d)) + 2) / 153 := rfl
    rw [he] at e5
    rw [e5]
    omega
  unfold JDtoYMD
  rw [hb, hdd, he, hm5]
  simp only [Prod.mk.injEq]
  refine ⟨by omega, by omega, by omega⟩


/-- C2: for every valid proleptic-Gregorian civil date `(y, m, d)`,
`JDtoYMD (YMDtoJD y m d) = (y, m, d)`. -/
theorem C2_YMD_roundtrip (y m d : Int) (hm1 : 1 ≤ m) (hm2 : m ≤ 12)
    (hd1 : 1 ≤ d) (hd2 : d ≤ daysInMonth y m) :
    JDtoYMD (YMDtoJD y (some m) (some d)) = (y, m, d) := by
  have hm12 : m = 1 ∨ m = 2 ∨ m = 3 ∨ m = 4 ∨ m = 5 ∨ m = 6 ∨ m = 7 ∨ m = 8 ∨
      m = 9 ∨ m = 10 ∨ m = 11 ∨ m = 12 := by omega
  rcases hm12 with rfl | rfl | rfl | rfl | rfl | rfl | rfl | rfl | rfl | rfl | rfl | rfl
  · exact c2_month y d 1 1 4799 306 10 31 (by norm_num) (by norm_num) (by decide)
      (by norm_num) (by decide) (by norm_num) (by norm_num) hd1
      (by simpa [daysInMonth] using hd2) (by norm_num) (by norm_num) (by decide)
      (by have : d ≤ 31 := by simpa [daysInMonth] using hd2
          omega)
  · have hdx : d ≤ 29 := by
      by_cases hL : isLeap y <;> simp [daysInMonth, hL] at hd2 <;> omega
    refine c2_month y d 2 1 4799 337 11 29 (by norm_num) (by norm_num) (by decide)
      (by norm_num) (by decide) (by norm_num) (by norm_num) hd1 hdx
      (by norm_num) (by norm_num) (by decide) ?_
    intro h365'
    have hLp : isLeap y := by
      by_contra hL
      have : d ≤ 28 := by simp [daysInMonth, hL] at hd2; omega
      omega
    unfold isLeap at hLp
    omega
  · exact c2_month y d 3 0 4800 0 0 31 (by norm_num) (by norm_num) (by decide)
      (by norm_num) (by decide) (by norm_num) (by norm_num) hd1
      (by simpa [daysInMonth] using hd2) (by norm_num) (by norm_num) (by decide)
      (by have : d ≤ 31 := by simpa [daysInMonth] using hd2
          omega)
  · exact c2_month y d 4 0 4800 31 1 30 (by norm_num) (by norm_num) (by decide)
      (by norm_num) (by decide) (by norm_num) (by norm_num) hd1
      (by simpa [daysInMonth] using hd2) (by norm_num) (by norm_num) (by decide)
      (by have : d ≤ 30 := by simpa [daysInMonth] using hd2
          omega)
  · exact c2_month y d 5 0 4800 61 2 31 (by norm_num) (by norm_num) (by decide)
      (by norm_num) (by decide) (by norm_num) (by norm_num) hd1
      (by simpa [daysInMonth] using hd2) (by norm_num) (by norm_num) (by decide)
      (by have : d ≤ 31 := by simpa [daysInMonth] using hd2
          omega)
  · exact c2_month y d 6 0 4800 92 3 30 (by norm_num) (by norm_num) (by decide)
      (by norm_num) (by decide) (by norm_num) (by norm_num) hd1
      (by simpa [daysInMonth] using hd2) (by norm_num) (by norm_num) (by decide)
      (by have : d ≤ 30 := by simpa [daysInMonth] using hd2
          omega)
  · exact c2_month y d 7 0 4800 122 4 31 (by norm_num) (by norm_num) (by decide)
      (by norm_num) (by decide) (by norm_num) (by norm_num) hd1
      (by simpa [daysInMonth] using hd2) (by norm_num) (by norm_num) (by decide)
      (by have : d ≤ 31 := by simpa [daysInMonth] using hd2
          omega)
  · exact c2_month y d 8 0 4800 153 5 31 (by norm_num) (by norm_num) (by decide)
      (by norm_num) (by decide) (by norm_num) (by norm_num) hd1
      (by simpa [daysInMonth] using hd2) (by norm_num) (by norm_num) (by decide)
      (by have : d ≤ 31 := by simpa [daysInMonth] using hd2
          omega)
  · exact c2_month y d 9 0 4800 184 6 30 (by norm_num) (by norm_num) (by decide)
      (by norm_num) (by decide) (by norm_num) (by norm_num) hd1
      (by simpa [daysInMonth] using hd2) (by norm_num) (by norm_num) (by decide)
      (by have : d ≤ 30 := by simpa [daysInMonth] using hd2
          omega)
  · exact c2_month y d 10 0 4800 214 7 31 (by norm_num) (by norm_num) (by decide)
      (by norm_num) (by decide) (by norm_num) (by norm_num) hd1
      (by simpa [daysInMonth] using hd2) (by norm_num) (by norm_num) (by decide)
      (by have : d ≤ 31 := by simpa [daysInMonth] using hd2
          omega)
  · exact c2_month y d 11 0 4800 245 8 30 (by norm_num) (by norm_num) (by decide)
      (by norm_num) (by decide) (by norm_num) (by norm_num) hd1
      (by simpa [daysInMonth] using hd2) (by norm_num) (by norm_num) (by decide)
      (by have : d ≤ 30 := by simpa [daysInMonth] using hd2
          omega)
  · exact c2_month y d 12 0 4800 275 9 31 (by norm_num) (by norm_num) (by decide)
      (by norm_num) (by decide) (by norm_num) (by norm_num) hd1
      (by simpa [daysInMonth] using hd2) (by norm_num) (by norm_num) (by decide)
      (by have : d ≤ 31 := by simpa [daysInMonth] using hd2
          omega)

/-- C6 counterexample: for the valid civil date (−4713, 11, 22) the function
returns −1, outside the claimed range 0..6 (the JS `%` of the negative
JD-like sum is negative). -/
theorem C6_negative_year_counterexample :
    YMDtoDayOfWeek (-4713) 11 22 = -1 ∧
    ¬(0 ≤ YMDtoDayOfWeek (-4713) 11 22 ∧ YMDtoDayOfWeek (-4713) 11 22 ≤ 6) := by
  constructor
  · decide
  · decide

/-- C6 amended: for every civil date `(y, m, d)` with `y ≥ −4712`,
`1 ≤ m ≤ 12` and `d` valid for `(y, m)`, `YMDtoDayOfWeek y m d` is in 0..6
(0 = Sunday .. 6 = Saturday). -/
theorem C6_dow_range_amended (y m d : Int) (hy : -4712 ≤ y) (hm1 : 1 ≤ m) (hm2 : m ≤ 12)
    (hd1 : 1 ≤ d) (hd2 : d ≤ daysInMonth y m) :
    0 ≤ YMDtoDayOfWeek y m d ∧ YMDtoDayOfWeek y m d ≤ 6 := by
  have hd31 : d ≤ 31 := by
    refine le_trans hd2 ?_
    unfold daysInMonth
    split_ifs <;> omega
  have hA : dowM m = (14 - m) / 12 := by
    unfold dowM
    exact Int.tdiv_eq_ediv (by omega) (by omega)
  have hA01 : 0 ≤ dowM m ∧ dowM m ≤ 1 ∧ (dowM m = 0 → 3 ≤ m) ∧ (dowM m = 1 → m ≤ 2) := by
    rw [hA]
    omega
  have hY87 : 87 ≤ dowY y m := by
    unfold dowY
    omega
  have hTE : dowT m = (153 * (m + 12 * dowM m - 3) + 2) / 5 := by
    unfold dowT
    exact Int.tdiv_eq_ediv (by omega) (by omega)
  have h4 : Int.tdiv (dowY y m) 4 = dowY y m / 4 :=
    Int.tdiv_eq_ediv (by omega) (by omega)
  have h100 : Int.tdiv (dowY y m) 100 = dowY y m / 100 :=
    Int.tdiv_eq_ediv (by omega) (by omega)
  have h400 : Int.tdiv (dowY y m) 400 = dowY y m / 400 :=
    Int.tdiv_eq_ediv (by omega) (by omega)
  have hS : 0 ≤ d + dowT m + 365 * dowY y m + Int.tdiv (dowY y m) 4 -
      Int.tdiv (dowY y m) 100 + Int.tdiv (dowY y m) 400 - 32045 := by
    rw [h4, h100, h400, hTE]
    have hyv : dowY y m = y + 4800 - dowM m := rfl
    omega
  have hR : dowR y m d =
      (d + dowT m + 365 * dowY y m + Int.tdiv (dowY y m) 4 -
        Int.tdiv (dowY y m) 100 + Int.tdiv (dowY y m) 400 - 32045) % 7 + 1 := by
    unfold dowR
    rw [Int.tmod_eq_emod hS (by omega)]
  have hRb : 1 ≤ dowR y m d ∧ dowR y m d ≤ 7 := by
    rw [hR]
    omega
  unfold YMDtoDayOfWeek
  split_ifs <;> omega

/-- C6 amended, witness at (2000, 1, 1), a Saturday. -/
theorem C6_dow_range_amended_witness :
    -4712 ≤ (2000 : Int) ∧ (1 : Int) ≤ 1 ∧ (1 : Int) ≤ 12 ∧ (1 : Int) ≤ 1 ∧
      (1 : Int) ≤ daysInMonth 2000 1 ∧
      (0 ≤ YMDtoDayOfWeek 2000 1 1 ∧ YMDtoDayOfWeek 2000 1 1 ≤ 6) :=
  ⟨by norm_num, by norm_num, by norm_num, by norm_num, by decide,
   C6_dow_range_amended 2000 1 1 (by norm_num) (by norm_num) (by norm_num) (by norm_num)
     (by decide)⟩

/-- C4: `YDMtoISO_YW 2016 1 1 = "2015-W53"` — January 1, 2016 belongs to
the last ISO week of ISO week-numbering year 2015. -/
theorem C4_iso_year_boundary : YDMtoISO_YW 2016 (some 1) (some 1) = "2015-W53" := by
  decide

/-- C5: `JDtoDate jd obj` keeps the time-of-day fields of a caller-supplied
object and sets exactly the calendar fields to `JDtoYMD jd` (the stored
month is the JS 0-based month); `JDtoDate jd` without an object returns an
object with zero time-of-day fields and the same calendar fields. -/
theorem C5_JDtoDate_contract (jd : Int) (o : DateObj) :
    ((JDtoDate jd (some o)).hours = o.hours ∧
     (JDtoDate jd (some o)).minutes = o.minutes ∧
     (JDtoDate jd (some o)).seconds = o.seconds ∧
     (JDtoDate jd (some o)).fullYear = (JDtoYMD jd).1 ∧
     (JDtoDate jd (some o)).month = (JDtoYMD jd).2.1 - 1 ∧
     (JDtoDate jd (some o)).date = (JDtoYMD jd).2.2) ∧
    ((JDtoDate jd none).hours = 0 ∧
     (JDtoDate jd none).minutes = 0 ∧
     (JDtoDate jd none).seconds = 0 ∧
     (JDtoDate jd none).fullYear = (JDtoYMD jd).1 ∧
     (JDtoDate jd none).month = (JDtoYMD jd).2.1 - 1 ∧
     (JDtoDate jd none).date = (JDtoYMD jd).2.2) := by
  unfold JDtoDate
  exact ⟨⟨rfl, rfl, rfl, rfl, rfl, rfl⟩, ⟨rfl, rfl, rfl, rfl, rfl, rfl⟩⟩

/-- C8: an explicit day argument 0 is coerced to 1 by `(+day || 1)`, and an
omitted month/day default to 1. -/
theorem C8_day_zero_default (y m : Int) (hm1 : 1 ≤ m) (hm2 : m ≤ 12) :
    YMDtoJD y (some m) (some 0) = YMDtoJD y (some m) (some 1) ∧
    YMDtoJD y none none = YMDtoJD y (some 1) (some 1) := by
  constructor
  · unfold YMDtoJD jsOr1
    norm_num
  · unfold YMDtoJD jsOr1
    norm_num

/-- C8 witness at (2020, 5). -/
theorem C8_day_zero_default_witness :
    (1 : Int) ≤ 5 ∧ (5 : Int) ≤ 12 ∧
      (YMDtoJD 2020 (some 5) (some 0) = YMDtoJD 2020 (some 5) (some 1) ∧
       YMDtoJD 2020 none none = YMDtoJD 2020 (some 1) (some 1)) :=
  ⟨by norm_num, by norm_num, C8_day_zero_default 2020 5 (by norm_num) (by norm_num)⟩

/-! ### String-layer lemmas -/

lemma digit_facts (n : Nat) (h : n < 10) :
    isDig (digitChar n) = true ∧ dVal (digitChar n) = n := by
  interval_cases n <;> exact ⟨by decide, by decide⟩

lemma natDigitsGo_spec (fuel : Nat) : ∀ n tail, n < fuel →
    ∃ P, 0 < P ∧ ∀ acc, digitsAcc acc (natDigitsGo fuel n tail) = digitsAcc (P * acc + n) tail := by
  induction fuel with
  | zero => intro n tail h; omega
  | succ f ih =>
    intro n tail h
    by_cases h10 : n < 10
    · refine ⟨10, by omega, fun acc => ?_⟩
      have hd := digit_facts n h10
      simp only [natDigitsGo, if_pos h10, digitsAcc, hd.1, if_pos, hd.2]
    · obtain ⟨P, hP, hspec⟩ := ih (n / 10) (digitChar (n % 10) :: tail) (by omega)
      refine ⟨10 * P, by omega, fun acc => ?_⟩
      simp only [natDigitsGo, if_neg h10]
      rw [hspec acc]
      have hd1 := (digit_facts (n % 10) (by omega)).1
      have hd2 := (digit_facts (n % 10) (by omega)).2
      simp only [digitsAcc, hd1, if_pos]
      congr 1
      rw [Nat.mul_assoc 10 P acc]
      omega

lemma natDigitsGo_digits (fuel : Nat) : ∀ n tail, (∀ c ∈ tail, isDig c = true) →
    ∀ c ∈ natDigitsGo fuel n tail, isDig c = true := by
  induction fuel with
  | zero => intro n tail ht; exact ht
  | succ f ih =>
    intro n tail ht c hc
    by_cases h10 : n < 10
    · simp only [natDigitsGo, if_pos h10] at hc
      rw [List.mem_cons] at hc
      rcases hc with hc | hc
      · exact hc ▸ (digit_facts n h10).1
      · exact ht c hc
    · simp only [natDigitsGo, if_neg h10] at hc
      refine ih (n / 10) _ ?_ c hc
      intro c' hc'
      rw [List.mem_cons] at hc'
      rcases hc' with hc' | hc'
      · exact hc' ▸ (digit_facts (n % 10) (by omega)).1
      · exact ht c' hc'

lemma natDigitsGo_ne_nil (fuel : Nat) : ∀ n tail, fuel ≠ 0 ∨ tail ≠ [] →
    natDigitsGo fuel n tail ≠ [] := by
  induction fuel with
  | zero =>
    intro n tail h
    rcases h with h | h
    · omega
    · exact h
  | succ f ih =>
    intro n tail _
    by_cases h10 : n < 10
    · simp [natDigitsGo, if_pos h10]
    · simp only [natDigitsGo, if_neg h10]
      exact ih _ _ (Or.inr (by simp))

lemma digitsAcc_natDigits (n : Nat) : digitsAcc 0 (natDigits n) = some n := by
  obtain ⟨P, hP, hspec⟩ := natDigitsGo_spec (n + 1) n [] (by omega)
  have := hspec 0
  simpa [digitsAcc] using this

lemma natDigits_digits (n : Nat) : ∀ c ∈ natDigits n, isDig c = true :=
  natDigitsGo_digits (n + 1) n [] (by simp)

lemma jsNumL_natDigits (n : Nat) : jsNumL (natDigits n) = some (n : Int) := by
  have hne : natDigits n ≠ [] := natDigitsGo_ne_nil (n + 1) n [] (Or.inl (by omega))
  have hdig := natDigits_digits n
  have hacc := digitsAcc_natDigits n
  cases hnd : natDigits n with
  | nil => exact absurd hnd hne
  | cons c cs =>
    have hc : isDig c = true := hdig c (by rw [hnd]; exact List.mem_cons_self c cs)
    have hcne : ¬(c = '-') := by
      intro h
      rw [h] at hc
      exact absurd hc (by decide)
    rw [hnd] at hacc
    simp [jsNumL, hcne, hacc]

lemma jsNumL_intToStrL_nonneg (n : Int) (h : 0 ≤ n) : jsNumL (intToStrL n) = some n := by
  rw [intToStrL, if_neg (by omega)]
  rw [jsNumL_natDigits]
  congr 1
  omega

lemma splitOnChar_ne_nil (sep : Char) (A : List Char) : splitOnChar sep A ≠ [] := by
  cases A with
  | nil => simp [splitOnChar]
  | cons c cs =>
    simp only [splitOnChar]
    cases h : splitOnChar sep cs with
    | nil => simp
    | cons x t =>
      by_cases hc : c = sep <;> simp [hc]

lemma splitOnChar_not_mem (sep : Char) : ∀ A, sep ∉ A → splitOnChar sep A = [A] := by
  intro A
  induction A with
  | nil => intro _; rfl
  | cons c cs ih =>
    intro h
    have hc : ¬(c = sep) := fun hh => h (by simp [hh])
    have hcs : sep ∉ cs := fun hh => h (List.mem_cons_of_mem _ hh)
    simp only [splitOnChar, ih hcs, if_neg hc]

lemma splitOnChar_append (sep : Char) : ∀ A B, sep ∉ A →
    splitOnChar sep (A ++ sep :: B) = A :: splitOnChar sep B := by
  intro A B
  induction A with
  | nil =>
    intro _
    simp only [List.nil_append, splitOnChar]
    cases h : splitOnChar sep B with
    | nil => exact absurd h (splitOnChar_ne_nil sep B)
    | cons x t => simp
  | cons c cs ih =>
    intro h
    have hc : ¬(c = sep) := fun hh => h (by simp [hh])
    have hcs : sep ∉ cs := fun hh => h (List.mem_cons_of_mem _ hh)
    simp only [List.cons_append, splitOnChar, List.append_eq]
    rw [ih hcs]
    simp [hc]

lemma not_minus_intToStrL (n : Int) (h : 0 ≤ n) : '-' ∉ intToStrL n := by
  rw [intToStrL, if_neg (by omega)]
  intro hmem
  have := natDigits_digits n.toNat '-' hmem
  exact absurd this (by decide)

lemma pad_data (v : Int) :
    (pad_ v).data = if v < 10 then '0' :: intToStrL v else intToStrL v := by
  unfold pad_
  split_ifs with h10
  · show ("0" ++ intToStr v).data = '0' :: intToStrL v
    rw [String.data_append]
    rfl
  · rfl

lemma jsNumL_pad (v : Int) (h : 0 ≤ v) : jsNumL (pad_ v).data = some v := by
  rw [pad_data]
  split_ifs with h10
  · rw [intToStrL, if_neg (by omega)]
    have hacc := digitsAcc_natDigits v.toNat
    have : jsNumL ('0' :: natDigits v.toNat) =
        (digitsAcc 0 ('0' :: natDigits v.toNat)).map fun k => (k : Int) := by
      simp [jsNumL]
    rw [this]
    have h0 : digitsAcc 0 ('0' :: natDigits v.toNat) = digitsAcc 0 (natDigits v.toNat) := by
      simp [digitsAcc]
      rfl
    rw [h0, hacc]
    simp [Int.toNat_of_nonneg h]
  · exact jsNumL_intToStrL_nonneg v h

lemma not_minus_pad (v : Int) (h : 0 ≤ v) : '-' ∉ (pad_ v).data := by
  rw [pad_data]
  split_ifs with h10
  · intro hmem
    rw [List.mem_cons] at hmem
    rcases hmem with hmem | hmem
    · exact absurd hmem (by decide)
    · exact not_minus_intToStrL v h hmem
  · exact not_minus_intToStrL v h

/-- C3 amended: for every integer `n ≥ 0`,
`ISOtoADMonth (ADMonthToISO_YM n) = n` and
`ADMonthToJD n = YMDtoJD (n / 12) (n % 12 + 1) 1` (floor
division/non-negative remainder). -/
theorem C3_admonth_amended (n : Int) (hn : 0 ≤ n) :
    ISOtoADMonth (ADMonthToISO_YM n) = some n ∧
    ADMonthToJD n = YMDtoJD (n / 12) (some (n % 12 + 1)) (some 1) := by
  have htd : Int.tdiv n 12 = n / 12 := Int.tdiv_eq_ediv hn (by omega)
  have htm : Int.tmod n 12 = n % 12 := Int.tmod_eq_emod hn (by omega)
  constructor
  · have hq : 0 ≤ Int.tdiv n 12 := by omega
    have hr : 0 ≤ Int.tmod n 12 + 1 ∧ Int.tmod n 12 + 1 ≤ 12 := by omega
    have hdata : (ADMonthToISO_YM n).data =
        intToStrL (Int.tdiv n 12) ++ '-' :: (pad_ (Int.tmod n 12 + 1)).data := by
      unfold ADMonthToISO_YM
      rw [String.data_append, String.data_append]
      simp [intToStr]
    unfold ISOtoADMonth
    rw [hdata]
    rw [splitOnChar_append '-' _ _ (not_minus_intToStrL _ hq),
        splitOnChar_not_mem '-' _ (not_minus_pad _ (by omega))]
    simp only [List.head?]
    rw [jsNumL_intToStrL_nonneg _ hq]
    simp only [Option.some_bind]
    rw [jsNumL_pad _ (by omega)]
    have hj : jsOr1 (some (Int.tmod n 12 + 1)) = Int.tmod n 12 + 1 := by
      simp only [jsOr1]
      rw [if_neg (by omega)]
    rw [hj]
    simp only [Option.map_some']
    congr 1
    omega
  · unfold ADMonthToJD
    rw [htd, htm]

/-- C3 counterexample: at n = −1 the truncating operators and the month
`|| 1` default break both identities: `ADMonthToISO_YM (-1) = "0-00"`,
which parses back to 0, and `ADMonthToJD (-1) = YMDtoJD 0 1 1` instead of
`YMDtoJD (-1) 12 1`. -/
theorem C3_negative_counterexample :
    ISOtoADMonth (ADMonthToISO_YM (-1)) ≠ some (-1) ∧
    ADMonthToJD (-1) ≠ YMDtoJD ((-1 : Int) / 12) (some ((-1 : Int) % 12 + 1)) (some 1) := by
  constructor
  · decide
  · decide

/-- C7: `ISO_HMStoPercents "00:00:00" = 0`, `ISO_HMStoPercents "23:59:59"`
is exactly 100, and in general the conversion is seconds-since-midnight
× 100 / 86399 (the constant 86399, not 86400). -/
theorem C7_percents :
    ISO_HMStoPercents "00:00:00" = some 0 ∧
    ISO_HMStoPercents "23:59:59" = some 100 ∧
    ∀ s : String, ISO_HMStoPercents s =
      (ISO_HMStoSeconds s).map fun k : Int => (k : ℚ) * 100 / 86399 := by
  have hgen : ∀ s : String, ISO_HMStoPercents s =
      (ISO_HMStoSeconds s).map fun k : Int => (k : ℚ) * 100 / 86399 := by
    intro s
    unfold ISO_HMStoPercents ISO_HMStoSeconds
    cases hsp : splitOnChar ':' s.data with
    | nil => rfl
    | cons h0 rest =>
      cases hn : jsNumL h0 <;> simp [hn]
  refine ⟨?_, ?_, hgen⟩
  · rw [hgen]
    have h0 : ISO_HMStoSeconds "00:00:00" = some 0 := by decide
    rw [h0]
    simp
  · rw [hgen]
    have h1 : ISO_HMStoSeconds "23:59:59" = some 86399 := by decide
    rw [h1]
    simp only [Option.map_some']
    norm_num

/-- C10: a well-formed ISO week string "YYYY-Www" without a day token
parses through the week branch with the day position missing (JS `NaN`),
which the `dow || 1` defaulting of `YWDoWtoJD` replaces by 1, so the result is
the Monday of that week — the same value as for "YYYY-Www-1" and as
`YWDoWtoJD y w 1`. -/
theorem C10_week_default_monday (s s1 : String) (y w : Int) (sy sw : List Char)
    (hsplit : splitOnChar '-' s.data = [sy, sw])
    (hW : s.data.contains 'W' = true)
    (hy : jsNumL sy = some y) (hw : jsNumL (sw.drop 1) = some w)
    (hsplit1 : splitOnChar '-' s1.data = [sy, sw, ['1']])
    (hW1 : s1.data.contains 'W' = true) :
    ISOtoJD s = some (YWDoWtoJD y w (some 1)) ∧
    ISOtoJD s = some (YWDoWtoJD y w none) ∧
    ISOtoJD s = ISOtoJD s1 := by
  have hdef : YWDoWtoJD y w none = YWDoWtoJD y w (some 1) := by
    unfold YWDoWtoJD
    norm_num [jsOr1]
  have hw2 : jsNumL sw.tail = some w := by
    rw [← List.drop_one]
    exact hw
  have h1 : ISOtoJD s = some (YWDoWtoJD y w none) := by
    unfold ISOtoJD
    rw [if_pos hW, hsplit]
    simp [hy, hw2]
  have h2 : ISOtoJD s1 = some (YWDoWtoJD y w (some 1)) := by
    unfold ISOtoJD
    rw [if_pos hW1, hsplit1]
    simp [hy, hw2, show jsNumL ['1'] = some 1 from by decide]
  refine ⟨?_, h1, ?_⟩
  · rw [h1, hdef]
  · rw [h1, hdef, h2]

/-- C10 witness at "2015-W05" / "2015-W05-1". -/
theorem C10_week_default_monday_witness :
    splitOnChar '-' ("2015-W05" : String).data = ["2015".data, "W05".data] ∧
    ("2015-W05" : String).data.contains 'W' = true ∧
    jsNumL "2015".data = some 2015 ∧
    jsNumL ("W05".data.drop 1) = some 5 ∧
    splitOnChar '-' ("2015-W05-1" : String).data = ["2015".data, "W05".data, ['1']] ∧
    ("2015-W05-1" : String).data.contains 'W' = true ∧
    (ISOtoJD "2015-W05" = some (YWDoWtoJD 2015 5 (some 1)) ∧
     ISOtoJD "2015-W05" = some (YWDoWtoJD 2015 5 none) ∧
     ISOtoJD "2015-W05" = ISOtoJD "2015-W05-1") :=
  ⟨by decide, by decide, by decide, by decide, by decide, by decide,
   C10_week_default_monday "2015-W05" "2015-W05-1" 2015 5 "2015".data "W05".data
     (by decide) (by decide) (by decide) (by decide) (by decide) (by decide)⟩

/-- C2 witness at (2000, 2, 29), a leap-year Feb 29. -/
theorem C2_YMD_roundtrip_witness :
    (1 : Int) ≤ 2 ∧ (2 : Int) ≤ 12 ∧ (1 : Int) ≤ 29 ∧ (29 : Int) ≤ daysInMonth 2000 2 ∧
      JDtoYMD (YMDtoJD 2000 (some 2) (some 29)) = (2000, 2, 29) :=
  ⟨by norm_num, by norm_num, by norm_num, by decide,
   C2_YMD_roundtrip 2000 2 29 (by norm_num) (by norm_num) (by norm_num) (by decide)⟩

/-- C3 amended, witness at n = 24181 (February 2015). -/
theorem C3_admonth_amended_witness :
    (0 : Int) ≤ 24181 ∧
      (ISOtoADMonth (ADMonthToISO_YM 24181) = some 24181 ∧
       ADMonthToJD 24181 = YMDtoJD (24181 / 12) (some (24181 % 12 + 1)) (some 1)) :=
  ⟨by norm_num, C3_admonth_amended 24181 (by norm_num)⟩
